import Mathlib

/-!
Shallow embedding of `sapcc/helm-migrate-release` (src/main.go).

The program is a sequential CLI that copies Helm release revisions from a
source storage driver to a target driver (ConfigMaps or Secrets) and deletes
each revision from the source after a successful copy.  All interaction with
the external Helm SDK and Kubernetes client is modelled by an environment
`Env` of effect oracles (outcome of the history fetch, of each `Create` and
`Delete` call, of the release listing, and of client construction), and the
side effects performed by the program are recorded as an event trace.
-/

/-- A Helm release revision record, as used by `main.go`: the fields
`release.Name`, `release.Namespace` and `release.Version` (a Go `int`). -/
structure Release where
  name : String
  nspace : String
  version : Int
deriving DecidableEq

/-- The target storage driver kind selected by the switch of `migrateRelease`
on the `-to` flag: `driver.NewConfigMaps` or `driver.NewSecrets`. -/
inductive TargetKind where
  | configMapKind
  | secretKind
deriving DecidableEq

/-- Observable side effects of the migration: a `helmStorage.Create(release)`
attempt on the selected target driver (built for a concrete namespace), or a
`m.actionCfg.Releases.Delete(releaseName, version)` attempt on the source
driver. An event records the attempt; its success is given by `Env`. -/
inductive MEvent where
  | create (target : TargetKind) (nspace : String) (rel : Release)
  | delete (releaseName : String) (version : Int)
deriving DecidableEq

/-- Whether an event is a create attempt on the target driver. -/
def MEvent.isCreate : MEvent → Bool
  | .create _ _ _ => true
  | .delete _ _ => false

/-- Whether an event is a delete attempt on the source driver. -/
def MEvent.isDelete : MEvent → Bool
  | .create _ _ _ => false
  | .delete _ _ => true

/-- The environment: parsed flag values plus oracles for every external call
the program makes through the Helm SDK / Kubernetes client.
`histRun name cfgNs max` is the result of `action.NewHistory(cfg).Run(name)`
for an action configuration initialised with namespace `cfgNs` and with
`Max = max`; `createOk` and `deleteOk` give the success of each storage
write/delete; `listRun allNamespaces` is the result of
`action.NewList(cfg).Run()`; `setupErr` is a failure of client
construction / configuration init inside `NewMigrator`, if any. -/
structure Env where
  kubeconfigFlag : String
  toFlag : String
  nsFlag : String
  maxFlag : Int
  histRun : String → String → Int → Except String (List Release)
  createOk : TargetKind → String → Release → Bool
  deleteOk : String → Int → Bool
  listRun : Bool → Except String (List Release)
  setupErr : Option String

/-- The `Migrator` struct.  Its `actionCfg` field was initialised with the
namespace passed to `NewMigrator`; that namespace is the only part of the
configuration the model needs to track. -/
structure Migrator where
  cfgNamespace : String
deriving DecidableEq

/-- Model of `NewMigrator(kubeconfig, namespace)`: builds the clients and initialises
the action configuration for `namespace`; any error aborts construction. -/
def NewMigrator (env : Env) (kubeconfig ns : String) : Except String Migrator :=
  match env.setupErr with
  | some e => Except.error e
  | none =>
    let _ := kubeconfig
    Except.ok { cfgNamespace := ns }

/-- The switch on the `-to` flag at the top of `migrateRelease`:
`case "configmap", "configmaps"` selects the ConfigMaps driver,
`case "secret", "secrets"` the Secrets driver, anything else is the
`default` (error) branch. -/
def parseTo (toArg : String) : Option TargetKind :=
  match toArg with
  | "configmap" => some TargetKind.configMapKind
  | "configmaps" => some TargetKind.configMapKind
  | "secret" => some TargetKind.secretKind
  | "secrets" => some TargetKind.secretKind
  | _ => none

/-- The per-revision loop body of `migrateRelease`: attempt
`helmStorage.Create(release)`; on failure set `failed` and `continue`;
otherwise attempt `Releases.Delete(releaseName, release.Version)`; on
failure set `failed` and `continue`.  Returns the final `failed` flag and
the trace of attempted operations, in order. -/
def migrateLoop (env : Env) (releaseName : String) (tgt : TargetKind) (ns : String) :
    List Release → Bool → Bool × List MEvent
  | [], failed => (failed, [])
  | r :: rest, failed =>
    if env.createOk tgt ns r then
      if env.deleteOk releaseName r.version then
        let p := migrateLoop env releaseName tgt ns rest failed
        (p.1, MEvent.create tgt ns r :: MEvent.delete releaseName r.version :: p.2)
      else
        let p := migrateLoop env releaseName tgt ns rest true
        (p.1, MEvent.create tgt ns r :: MEvent.delete releaseName r.version :: p.2)
    else
      let p := migrateLoop env releaseName tgt ns rest true
      (p.1, MEvent.create tgt ns r :: p.2)

/-- Model of `Migrator.migrateRelease(releaseName, namespace)`: select the target
driver from the `-to` flag (error out on an unknown kind), fetch up to
`maxHist` revisions of the release through the action configuration, then
run the per-revision copy-then-delete loop; return an aggregate error if
any revision failed. -/
def migrateRelease (env : Env) (m : Migrator) (releaseName ns : String) :
    Except String Unit × List MEvent :=
  match parseTo env.toFlag with
  | none => (Except.error ("unknown resource type " ++ env.toFlag), [])
  | some tgt =>
    match env.histRun releaseName m.cfgNamespace env.maxFlag with
    | Except.error e => (Except.error e, [])
    | Except.ok hist =>
      let p := migrateLoop env releaseName tgt ns hist false
      if p.1 then (Except.error ("failed to migrate release " ++ releaseName), p.2)
      else (Except.ok (), p.2)

/-- The loop of `migrateNamespace`: for each listed release whose
`Namespace` equals the given namespace, invoke `migrateRelease`; an error
is printed and the loop continues. Collects the combined trace. -/
def nsLoop (env : Env) (m : Migrator) (ns : String) : List Release → List MEvent
  | [] => []
  | r :: rest =>
    if r.nspace = ns then (migrateRelease env m r.name ns).2 ++ nsLoop env m ns rest
    else nsLoop env m ns rest

/-- Model of `Migrator.migrateNamespace(namespace)`: list releases (with the default,
single-namespace `List` action), then migrate every release whose namespace
matches; per-release errors are only logged. -/
def migrateNamespace (env : Env) (m : Migrator) (ns : String) :
    Except String Unit × List MEvent :=
  match env.listRun false with
  | Except.error e => (Except.error e, [])
  | Except.ok releases => (Except.ok (), nsLoop env m ns releases)

/-- The loop of `migrateAll`: invoke `migrateRelease(release.Name,
release.Namespace)` for every listed release; an error is printed and the
loop continues. Collects the combined trace. -/
def allLoop (env : Env) (m : Migrator) : List Release → List MEvent
  | [] => []
  | r :: rest => (migrateRelease env m r.name r.nspace).2 ++ allLoop env m rest

/-- Model of `Migrator.migrateAll()`: list releases across all namespaces
(`AllNamespaces = true`), then migrate every one of them in its own
namespace; per-release errors are only logged. -/
def migrateAll (env : Env) (m : Migrator) : Except String Unit × List MEvent :=
  match env.listRun true with
  | Except.error e => (Except.error e, [])
  | Except.ok releases => (Except.ok (), allLoop env m releases)

/-- Outcome of a `main` invocation: either print `msg` on standard output
and `os.Exit(1)`, or terminate normally. -/
inductive MainOutcome where
  | exitOne (msg : String)
  | normal
deriving DecidableEq

/-- Lift the result of a migration operation into the outcome of `main`: a non-nil
error is printed and the process exits with code 1. -/
def toOutcome : Except String Unit × List MEvent → MainOutcome × List MEvent
  | (Except.error e, evs) => (MainOutcome.exitOne e, evs)
  | (Except.ok _, evs) => (MainOutcome.normal, evs)

/-- Model of `main` after flag parsing: `arg0` and `arg1` are `flag.Arg(0)` and
`flag.Arg(1)` (the empty string when absent).  Requires a subcommand,
constructs the `Migrator`, dispatches on the subcommand, and exits with
code 1 printing the message on any error. -/
def mainRun (env : Env) (arg0 arg1 : String) : MainOutcome × List MEvent :=
  if arg0 = "" then (MainOutcome.exitOne "subprogram is required", [])
  else
    match NewMigrator env env.kubeconfigFlag env.nsFlag with
    | Except.error e => (MainOutcome.exitOne e, [])
    | Except.ok m =>
      if arg0 = "release" then
        if arg1 = "" then (MainOutcome.exitOne "release name is required", [])
        else toOutcome (migrateRelease env m arg1 env.nsFlag)
      else if arg0 = "namespace" then toOutcome (migrateNamespace env m env.nsFlag)
      else if arg0 = "all" then toOutcome (migrateAll env m)
      else (MainOutcome.exitOne ("unknown subprogram " ++ arg0), [])

/-! ### Helper lemmas about the per-revision loop -/

/-- The events contributed by one revision of the loop: its create attempt,
followed by a delete attempt exactly when the create succeeded. -/
def revEvents (env : Env) (releaseName : String) (tgt : TargetKind) (ns : String)
    (r : Release) : List MEvent :=
  MEvent.create tgt ns r ::
    (if env.createOk tgt ns r then [MEvent.delete releaseName r.version] else [])

/-- Whether a revision fails to migrate: its create fails, or its create
succeeds and then its delete fails. -/
def revFails (env : Env) (releaseName : String) (tgt : TargetKind) (ns : String)
    (r : Release) : Bool :=
  !(env.createOk tgt ns r && env.deleteOk releaseName r.version)

theorem migrateLoop_eq (env : Env) (releaseName : String) (tgt : TargetKind) (ns : String)
    (l : List Release) : ∀ b : Bool,
    migrateLoop env releaseName tgt ns l b
      = (b || l.any (revFails env releaseName tgt ns),
         l.flatMap (revEvents env releaseName tgt ns)) := by
  induction l with
  | nil => intro b; simp [migrateLoop]
  | cons r rest ih =>
    intro b
    by_cases hc : env.createOk tgt ns r
    · by_cases hd : env.deleteOk releaseName r.version
      · simp [migrateLoop, hc, hd, ih, revEvents, revFails]
      · simp [migrateLoop, hc, hd, ih, revEvents, revFails]
    · simp [migrateLoop, hc, ih, revEvents, revFails]

theorem migrateRelease_trace (env : Env) (m : Migrator) (releaseName ns : String)
    (tgt : TargetKind) (hist : List Release)
    (hto : parseTo env.toFlag = some tgt)
    (hh : env.histRun releaseName m.cfgNamespace env.maxFlag = Except.ok hist) :
    (migrateRelease env m releaseName ns).2
      = hist.flatMap (revEvents env releaseName tgt ns) := by
  unfold migrateRelease
  rw [hto, hh]
  simp only [migrateLoop_eq]
  split <;> rfl

theorem migrateRelease_fst (env : Env) (m : Migrator) (releaseName ns : String)
    (tgt : TargetKind) (hist : List Release)
    (hto : parseTo env.toFlag = some tgt)
    (hh : env.histRun releaseName m.cfgNamespace env.maxFlag = Except.ok hist) :
    (migrateRelease env m releaseName ns).1
      = if hist.any (revFails env releaseName tgt ns)
        then Except.error ("failed to migrate release " ++ releaseName)
        else Except.ok () := by
  unfold migrateRelease
  rw [hto, hh]
  simp only [migrateLoop_eq, Bool.false_or]
  cases ha : hist.any (revFails env releaseName tgt ns) <;> simp [ha]

theorem delete_mem_revEvents (env : Env) (releaseName : String) (tgt : TargetKind)
    (ns nm : String) (v : Int) (r : Release) :
    MEvent.delete nm v ∈ revEvents env releaseName tgt ns r
      ↔ nm = releaseName ∧ v = r.version ∧ env.createOk tgt ns r = true := by
  by_cases hc : env.createOk tgt ns r <;> simp [revEvents, hc]

theorem create_mem_revEvents (env : Env) (releaseName : String) (tgt : TargetKind)
    (ns : String) (tgt' : TargetKind) (ns' : String) (rel r : Release) :
    MEvent.create tgt' ns' rel ∈ revEvents env releaseName tgt ns r
      ↔ tgt' = tgt ∧ ns' = ns ∧ rel = r := by
  by_cases hc : env.createOk tgt ns r <;> simp [revEvents, hc]

theorem delete_mem_flatMap_revEvents (env : Env) (releaseName : String) (tgt : TargetKind)
    (ns nm : String) (v : Int) (l : List Release) :
    MEvent.delete nm v ∈ l.flatMap (revEvents env releaseName tgt ns)
      ↔ nm = releaseName ∧ ∃ r ∈ l, r.version = v ∧ env.createOk tgt ns r = true := by
  simp only [List.mem_flatMap, delete_mem_revEvents]
  constructor
  · rintro ⟨r, hr, rfl, rfl, hok⟩
    exact ⟨rfl, r, hr, rfl, hok⟩
  · rintro ⟨rfl, r, hr, hv, hok⟩
    exact ⟨r, hr, rfl, hv.symm, hok⟩

theorem countP_isCreate_trace (env : Env) (releaseName : String) (tgt : TargetKind)
    (ns : String) (l : List Release) :
    (l.flatMap (revEvents env releaseName tgt ns)).countP MEvent.isCreate = l.length := by
  induction l with
  | nil => simp
  | cons r rest ih =>
    by_cases hc : env.createOk tgt ns r <;>
      simp [revEvents, hc, List.countP_cons, List.countP_append, ih, MEvent.isCreate]

theorem countP_isDelete_trace (env : Env) (releaseName : String) (tgt : TargetKind)
    (ns : String) (l : List Release) :
    (l.flatMap (revEvents env releaseName tgt ns)).countP MEvent.isDelete
      = l.countP (fun r => env.createOk tgt ns r) := by
  induction l with
  | nil => simp
  | cons r rest ih =>
    by_cases hc : env.createOk tgt ns r <;>
      simp [revEvents, hc, List.countP_cons, List.countP_append, ih, MEvent.isDelete]

theorem revFails_eq_false_iff (env : Env) (releaseName : String) (tgt : TargetKind)
    (ns : String) (r : Release) :
    revFails env releaseName tgt ns r = false
      ↔ (env.createOk tgt ns r = true ∧ env.deleteOk releaseName r.version = true) := by
  simp [revFails]

/-- Claim C2: for a release whose history fetch returns `hist` and for which
every target write and every source delete succeeds, `migrateRelease`
performs exactly `hist.length` creates on the target driver and exactly
`hist.length` deletes on the source driver, and returns no error. -/
theorem migrateRelease_success_counts (env : Env) (m : Migrator) (releaseName ns : String)
    (tgt : TargetKind) (hist : List Release)
    (hto : parseTo env.toFlag = some tgt)
    (hh : env.histRun releaseName m.cfgNamespace env.maxFlag = Except.ok hist)
    (hall : ∀ r ∈ hist,
      env.createOk tgt ns r = true ∧ env.deleteOk releaseName r.version = true) :
    (migrateRelease env m releaseName ns).1 = Except.ok ()
    ∧ (migrateRelease env m releaseName ns).2.countP MEvent.isCreate = hist.length
    ∧ (migrateRelease env m releaseName ns).2.countP MEvent.isDelete = hist.length := by
  have ht := migrateRelease_trace env m releaseName ns tgt hist hto hh
  have hf := migrateRelease_fst env m releaseName ns tgt hist hto hh
  have hany : hist.any (revFails env releaseName tgt ns) = false := by
    rw [List.any_eq_false]
    intro r hr
    simp only [Bool.not_eq_true]
    exact (revFails_eq_false_iff env releaseName tgt ns r).mpr (hall r hr)
  refine ⟨?_, ?_, ?_⟩
  · rw [hf, hany]; simp
  · rw [ht, countP_isCreate_trace]
  · rw [ht, countP_isDelete_trace]
    exact List.countP_eq_length.mpr (fun r hr => (hall r hr).1)

/-- Claim C3: during `migrateRelease`, a failed target create for a revision
skips the source delete of that revision, and neither a create failure nor a
delete failure stops the loop: every revision in the history still gets
its create attempted (the trace holds one create per revision), and a
delete is attempted exactly for the revisions whose create succeeded. -/
theorem migrateRelease_continues_past_failures (env : Env) (m : Migrator)
    (releaseName ns : String) (tgt : TargetKind) (hist : List Release)
    (hto : parseTo env.toFlag = some tgt)
    (hh : env.histRun releaseName m.cfgNamespace env.maxFlag = Except.ok hist) :
    (migrateRelease env m releaseName ns).2.countP MEvent.isCreate = hist.length
    ∧ (migrateRelease env m releaseName ns).2.countP MEvent.isDelete
        = hist.countP (fun r => env.createOk tgt ns r)
    ∧ (∀ r ∈ hist, env.createOk tgt ns r = false →
        MEvent.delete releaseName r.version ∈ (migrateRelease env m releaseName ns).2 →
        ∃ r', r' ∈ hist ∧ r'.version = r.version ∧ env.createOk tgt ns r' = true) := by
  have ht := migrateRelease_trace env m releaseName ns tgt hist hto hh
  refine ⟨by rw [ht, countP_isCreate_trace], by rw [ht, countP_isDelete_trace], ?_⟩
  intro r hr hfail hmem
  rw [ht, delete_mem_flatMap_revEvents] at hmem
  obtain ⟨-, r', hr', hv, hok⟩ := hmem
  exact ⟨r', hr', hv, hok⟩

/-- Claim C4: given that the target-driver selection and the history fetch
succeed, `migrateRelease` returns `ok` iff the create and the delete of
every revision succeed, and returns the aggregate error whenever the
create or delete of some revision failed. -/
theorem migrateRelease_error_iff_any_failure (env : Env) (m : Migrator)
    (releaseName ns : String) (tgt : TargetKind) (hist : List Release)
    (hto : parseTo env.toFlag = some tgt)
    (hh : env.histRun releaseName m.cfgNamespace env.maxFlag = Except.ok hist) :
    ((migrateRelease env m releaseName ns).1 = Except.ok ()
      ↔ ∀ r ∈ hist,
          env.createOk tgt ns r = true ∧ env.deleteOk releaseName r.version = true)
    ∧ ((∃ r ∈ hist, ¬(env.createOk tgt ns r = true
          ∧ env.deleteOk releaseName r.version = true)) →
        (migrateRelease env m releaseName ns).1
          = Except.error ("failed to migrate release " ++ releaseName)) := by
  have hf := migrateRelease_fst env m releaseName ns tgt hist hto hh
  by_cases ha : hist.any (revFails env releaseName tgt ns) = true
  · rw [hf, if_pos ha]
    obtain ⟨r0, hr0, hfail⟩ := List.any_eq_true.mp ha
    have hne : ¬(env.createOk tgt ns r0 = true ∧ env.deleteOk releaseName r0.version = true) := by
      intro hok
      rw [← revFails_eq_false_iff env releaseName tgt ns r0] at hok
      rw [hok] at hfail
      exact Bool.false_ne_true hfail
    constructor
    · constructor
      · intro h; exact absurd h (by simp)
      · intro h; exact absurd (h r0 hr0) hne
    · intro _; rfl
  · rw [hf, if_neg ha]
    rw [Bool.not_eq_true, List.any_eq_false] at ha
    have hok : ∀ r ∈ hist,
        env.createOk tgt ns r = true ∧ env.deleteOk releaseName r.version = true := by
      intro r hr
      exact (revFails_eq_false_iff env releaseName tgt ns r).mp (by
        have := ha r hr
        simpa using this)
    constructor
    · exact iff_of_true rfl hok
    · rintro ⟨r0, hr0, hne⟩
      exact absurd (hok r0 hr0) hne

theorem flatMap_revEvents_split (env : Env) (releaseName : String) (tgt : TargetKind)
    (ns : String) (l : List Release) (hnd : (l.map Release.version).Nodup)
    (r : Release) (hr : r ∈ l) (hok : env.createOk tgt ns r = true) :
    ∃ l1 l2, l.flatMap (revEvents env releaseName tgt ns)
        = l1 ++ MEvent.create tgt ns r :: MEvent.delete releaseName r.version :: l2
      ∧ MEvent.delete releaseName r.version ∉ l1 := by
  induction l with
  | nil => cases hr
  | cons r0 rest ih =>
    rw [List.map_cons, List.nodup_cons] at hnd
    obtain ⟨hv0, hndrest⟩ := hnd
    rcases List.mem_cons.mp hr with rfl | hr'
    · refine ⟨[], rest.flatMap (revEvents env releaseName tgt ns), ?_, by simp⟩
      simp [revEvents, hok]
    · obtain ⟨l1, l2, heq, hnotin⟩ := ih hndrest hr'
      refine ⟨revEvents env releaseName tgt ns r0 ++ l1, l2, ?_, ?_⟩
      · rw [List.flatMap_cons, heq, List.append_assoc]
      · intro hmem
        rcases List.mem_append.mp hmem with h1 | h2
        · rw [delete_mem_revEvents] at h1
          obtain ⟨-, hver, -⟩ := h1
          exact hv0 (hver ▸ List.mem_map_of_mem Release.version hr')
        · exact hnotin h2

/-- Claim C1: for every revision processed by `migrateRelease`, the source
delete of that revision is attempted only after the target create of that
same revision has succeeded: a revision whose target write failed is never
deleted from the source, and the delete of a successfully written revision
occurs in the trace immediately after its create, with no earlier delete
of that revision. -/
theorem migrateRelease_delete_only_after_create (env : Env) (m : Migrator)
    (releaseName ns : String) (tgt : TargetKind) (hist : List Release)
    (hto : parseTo env.toFlag = some tgt)
    (hh : env.histRun releaseName m.cfgNamespace env.maxFlag = Except.ok hist)
    (hnd : (hist.map Release.version).Nodup) :
    ∀ r ∈ hist,
      (env.createOk tgt ns r = false →
        MEvent.delete releaseName r.version ∉ (migrateRelease env m releaseName ns).2)
      ∧ (env.createOk tgt ns r = true →
        ∃ l1 l2, (migrateRelease env m releaseName ns).2
            = l1 ++ MEvent.create tgt ns r
                :: MEvent.delete releaseName r.version :: l2
          ∧ MEvent.delete releaseName r.version ∉ l1) := by
  intro r hr
  have ht := migrateRelease_trace env m releaseName ns tgt hist hto hh
  constructor
  · intro hfail hmem
    rw [ht, delete_mem_flatMap_revEvents] at hmem
    obtain ⟨-, r', hr', hver, hok⟩ := hmem
    have hrr : r' = r :=
      List.inj_on_of_nodup_map hnd hr' hr hver
    rw [hrr, hfail] at hok
    exact Bool.false_ne_true hok
  · intro hok
    rw [ht]
    exact flatMap_revEvents_split env releaseName tgt ns hist hnd r hr hok

theorem migrateRelease_snd_cases (env : Env) (m : Migrator) (releaseName ns : String) :
    (migrateRelease env m releaseName ns).2 = []
    ∨ ∃ tgt hist, parseTo env.toFlag = some tgt
        ∧ env.histRun releaseName m.cfgNamespace env.maxFlag = Except.ok hist
        ∧ (migrateRelease env m releaseName ns).2
            = hist.flatMap (revEvents env releaseName tgt ns) := by
  cases hpt : parseTo env.toFlag with
  | none =>
    left
    unfold migrateRelease
    rw [hpt]
  | some tgt =>
    cases hh : env.histRun releaseName m.cfgNamespace env.maxFlag with
    | error e =>
      left
      unfold migrateRelease
      rw [hpt, hh]
    | ok hist =>
      right
      exact ⟨tgt, hist, rfl, rfl, migrateRelease_trace env m releaseName ns tgt hist hpt hh⟩

theorem create_mem_migrateRelease (env : Env) (m : Migrator) (releaseName ns : String)
    (tgt' : TargetKind) (ns' : String) (rel : Release)
    (hmem : MEvent.create tgt' ns' rel ∈ (migrateRelease env m releaseName ns).2) :
    ns' = ns := by
  rcases migrateRelease_snd_cases env m releaseName ns with h | ⟨tgt, hist, -, -, h⟩
  · rw [h] at hmem
    cases hmem
  · rw [h, List.mem_flatMap] at hmem
    obtain ⟨r, -, hmem⟩ := hmem
    rw [create_mem_revEvents] at hmem
    exact hmem.2.1

theorem delete_name_mem_migrateRelease (env : Env) (m : Migrator) (releaseName ns : String)
    (nm : String) (v : Int)
    (hmem : MEvent.delete nm v ∈ (migrateRelease env m releaseName ns).2) :
    nm = releaseName := by
  rcases migrateRelease_snd_cases env m releaseName ns with h | ⟨tgt, hist, -, -, h⟩
  · rw [h] at hmem
    cases hmem
  · rw [h, delete_mem_flatMap_revEvents] at hmem
    exact hmem.1

theorem nsLoop_eq_filter (env : Env) (m : Migrator) (ns : String) (l : List Release) :
    nsLoop env m ns l
      = (l.filter (fun r => r.nspace = ns)).flatMap
          (fun r => (migrateRelease env m r.name ns).2) := by
  induction l with
  | nil => rfl
  | cons r rest ih =>
    by_cases h : r.nspace = ns <;> simp [nsLoop, h, ih, List.filter_cons]

/-- Claim C5: `migrateNamespace` invokes the release-migration primitive
exactly for the listed releases whose namespace equals the given one; every
create in its trace targets the given namespace, and any delete bearing the
name of a non-matching release can only stem from a matching release of the
same name. -/
theorem migrateNamespace_only_matching (env : Env) (m : Migrator) (ns : String)
    (releases : List Release) (hl : env.listRun false = Except.ok releases) :
    (migrateNamespace env m ns).2
        = (releases.filter (fun r => r.nspace = ns)).flatMap
            (fun r => (migrateRelease env m r.name ns).2)
    ∧ (∀ tgt' ns' rel,
        MEvent.create tgt' ns' rel ∈ (migrateNamespace env m ns).2 → ns' = ns)
    ∧ (∀ r ∈ releases, r.nspace ≠ ns → ∀ v,
        MEvent.delete r.name v ∈ (migrateNamespace env m ns).2 →
        ∃ r', r' ∈ releases ∧ r'.nspace = ns ∧ r'.name = r.name) := by
  have hns : (migrateNamespace env m ns).2 = nsLoop env m ns releases := by
    unfold migrateNamespace
    rw [hl]
  rw [hns, nsLoop_eq_filter]
  refine ⟨rfl, ?_, ?_⟩
  · intro tgt' ns' rel hmem
    rw [List.mem_flatMap] at hmem
    obtain ⟨r, -, hmem⟩ := hmem
    exact create_mem_migrateRelease env m r.name ns tgt' ns' rel hmem
  · intro r hr hne v hmem
    rw [List.mem_flatMap] at hmem
    obtain ⟨r', hr', hmem⟩ := hmem
    rw [List.mem_filter] at hr'
    obtain ⟨hr'mem, hr'ns⟩ := hr'
    have hname := delete_name_mem_migrateRelease env m r'.name ns r.name v hmem
    exact ⟨r', hr'mem, of_decide_eq_true hr'ns, hname.symm⟩

/-- Claim C6: with an unrecognized `-to` flag value, `migrateRelease`
returns the unknown-resource error with an empty trace (no write and no
delete attempted), and its result does not depend on the history, create
or delete oracles at all, so no history is fetched and no state changes. -/
theorem migrateRelease_unknown_to (env : Env) (m : Migrator) (releaseName ns : String)
    (hto : parseTo env.toFlag = none) :
    migrateRelease env m releaseName ns
        = (Except.error ("unknown resource type " ++ env.toFlag), [])
    ∧ (∀ h' c' d', migrateRelease
          { env with histRun := h', createOk := c', deleteOk := d' } m releaseName ns
        = (Except.error ("unknown resource type " ++ env.toFlag), [])) := by
  constructor
  · unfold migrateRelease
    rw [hto]
  · intro h' c' d'
    unfold migrateRelease
    rw [show ({ env with histRun := h', createOk := c', deleteOk := d' } : Env).toFlag
          = env.toFlag from rfl, hto]

/-- Claim C7: `migrateNamespace` and `migrateAll` return an error exactly
when the initial release listing fails, and in that case they return the
listing error itself; whenever the listing succeeds both return `ok`,
regardless of per-release failures. -/
theorem scope_error_iff_listing_fails (env : Env) (m : Migrator) (ns : String) :
    ((migrateNamespace env m ns).1 = Except.ok ()
      ↔ ∃ rs, env.listRun false = Except.ok rs)
    ∧ (∀ e, env.listRun false = Except.error e →
        (migrateNamespace env m ns).1 = Except.error e)
    ∧ ((migrateAll env m).1 = Except.ok ()
      ↔ ∃ rs, env.listRun true = Except.ok rs)
    ∧ (∀ e, env.listRun true = Except.error e → (migrateAll env m).1 = Except.error e) := by
  refine ⟨?_, ?_, ?_, ?_⟩
  · unfold migrateNamespace
    cases h : env.listRun false with
    | error e => simp
    | ok rs => simp
  · intro e h
    unfold migrateNamespace
    rw [h]
  · unfold migrateAll
    cases h : env.listRun true with
    | error e => simp
    | ok rs => simp
  · intro e h
    unfold migrateAll
    rw [h]

/-- Claim C8: every top-level error path of `main` (missing subcommand,
`Migrator` construction failure, unknown subcommand, missing release name,
or an error returned by the invoked migration operation) ends with the
error message printed on standard output and exit code 1. -/
theorem main_top_level_errors (env : Env) (arg0 arg1 : String) :
    (arg0 = "" →
      mainRun env arg0 arg1 = (MainOutcome.exitOne "subprogram is required", []))
    ∧ (∀ e, arg0 ≠ "" →
        NewMigrator env env.kubeconfigFlag env.nsFlag = Except.error e →
        mainRun env arg0 arg1 = (MainOutcome.exitOne e, []))
    ∧ (∀ m, arg0 ≠ "" → arg0 ≠ "release" → arg0 ≠ "namespace" → arg0 ≠ "all" →
        NewMigrator env env.kubeconfigFlag env.nsFlag = Except.ok m →
        mainRun env arg0 arg1
          = (MainOutcome.exitOne ("unknown subprogram " ++ arg0), []))
    ∧ (∀ m, NewMigrator env env.kubeconfigFlag env.nsFlag = Except.ok m →
        arg0 = "release" → arg1 = "" →
        mainRun env arg0 arg1 = (MainOutcome.exitOne "release name is required", []))
    ∧ (∀ m e evs, NewMigrator env env.kubeconfigFlag env.nsFlag = Except.ok m →
        arg0 = "release" → arg1 ≠ "" →
        migrateRelease env m arg1 env.nsFlag = (Except.error e, evs) →
        mainRun env arg0 arg1 = (MainOutcome.exitOne e, evs))
    ∧ (∀ m e evs, NewMigrator env env.kubeconfigFlag env.nsFlag = Except.ok m →
        arg0 = "namespace" →
        migrateNamespace env m env.nsFlag = (Except.error e, evs) →
        mainRun env arg0 arg1 = (MainOutcome.exitOne e, evs))
    ∧ (∀ m e evs, NewMigrator env env.kubeconfigFlag env.nsFlag = Except.ok m →
        arg0 = "all" →
        migrateAll env m = (Except.error e, evs) →
        mainRun env arg0 arg1 = (MainOutcome.exitOne e, evs)) := by
  refine ⟨?_, ?_, ?_, ?_, ?_, ?_, ?_⟩
  · intro h0
    subst h0
    rfl
  · intro e h0 hnm
    unfold mainRun
    rw [if_neg h0, hnm]
  · intro m h0 h1 h2 h3 hnm
    unfold mainRun
    rw [if_neg h0, hnm]
    simp only []
    rw [if_neg h1, if_neg h2, if_neg h3]
  · intro m hnm h0 h1
    subst h0
    subst h1
    simp [mainRun, hnm]
  · intro m e evs hnm h0 h1 hmr
    subst h0
    simp [mainRun, hnm, h1, hmr, toOutcome]
  · intro m e evs hnm h0 hns
    subst h0
    simp [mainRun, hnm, hns, toOutcome]
  · intro m e evs hnm h0 hall
    subst h0
    simp [mainRun, hnm, hall, toOutcome]

theorem migrateLoop_oracle_eq (env env' : Env) (releaseName : String) (tgt : TargetKind)
    (ns : String) (hc : env.createOk = env'.createOk) (hd : env.deleteOk = env'.deleteOk)
    (l : List Release) : ∀ b : Bool,
    migrateLoop env releaseName tgt ns l b = migrateLoop env' releaseName tgt ns l b := by
  induction l with
  | nil => intro b; rfl
  | cons r rest ih =>
    intro b
    unfold migrateLoop
    rw [hc, hd]
    by_cases hcr : env'.createOk tgt ns r
    · by_cases hdr : env'.deleteOk releaseName r.version
      · simp [hcr, hdr, ih]
      · simp [hcr, hdr, ih]
    · simp [hcr, ih]

theorem migrateRelease_toFlag_eq (env : Env) (m : Migrator) (releaseName ns : String)
    (s1 s2 : String) (tgt : TargetKind)
    (h1 : parseTo s1 = some tgt) (h2 : parseTo s2 = some tgt) :
    migrateRelease { env with toFlag := s1 } m releaseName ns
      = migrateRelease { env with toFlag := s2 } m releaseName ns := by
  unfold migrateRelease
  simp only [show ({ env with toFlag := s1 } : Env).toFlag = s1 from rfl,
    show ({ env with toFlag := s2 } : Env).toFlag = s2 from rfl,
    show ({ env with toFlag := s1 } : Env).histRun = env.histRun from rfl,
    show ({ env with toFlag := s2 } : Env).histRun = env.histRun from rfl,
    show ({ env with toFlag := s1 } : Env).maxFlag = env.maxFlag from rfl,
    show ({ env with toFlag := s2 } : Env).maxFlag = env.maxFlag from rfl,
    h1, h2]
  cases env.histRun releaseName m.cfgNamespace env.maxFlag with
  | error e => rfl
  | ok hist =>
    simp only [migrateLoop_oracle_eq { env with toFlag := s1 } env releaseName tgt ns rfl rfl
        hist false,
      migrateLoop_oracle_eq { env with toFlag := s2 } env releaseName tgt ns rfl rfl
        hist false]

/-- Claim C9: the `-to` flag also accepts the plural forms "configmaps" and
"secrets", and each plural selects the same target storage driver, and
yields the same `migrateRelease` behaviour, as the corresponding singular
form. -/
theorem to_flag_plural_aliases (env : Env) (m : Migrator) (releaseName ns : String) :
    parseTo "configmaps" = some TargetKind.configMapKind
    ∧ parseTo "configmap" = some TargetKind.configMapKind
    ∧ parseTo "secrets" = some TargetKind.secretKind
    ∧ parseTo "secret" = some TargetKind.secretKind
    ∧ migrateRelease { env with toFlag := "configmaps" } m releaseName ns
        = migrateRelease { env with toFlag := "configmap" } m releaseName ns
    ∧ migrateRelease { env with toFlag := "secrets" } m releaseName ns
        = migrateRelease { env with toFlag := "secret" } m releaseName ns :=
  ⟨rfl, rfl, rfl, rfl,
    migrateRelease_toFlag_eq env m releaseName ns "configmaps" "configmap"
      TargetKind.configMapKind rfl rfl,
    migrateRelease_toFlag_eq env m releaseName ns "secrets" "secret"
      TargetKind.secretKind rfl rfl⟩

theorem allLoop_eq_flatMap (env : Env) (m : Migrator) (l : List Release) :
    allLoop env m l = l.flatMap (fun r => (migrateRelease env m r.name r.nspace).2) := by
  induction l with
  | nil => rfl
  | cons r rest ih => simp [allLoop, ih]

/-- Claim C10: `migrateAll` invokes the release-migration primitive with
each listed release in its own namespace, and inside the primitive every
target write goes to the namespace it was invoked with, while the history
fetch depends only on the history oracle at the namespace the action
configuration was initialised with (the `-namespace` flag value recorded
by `NewMigrator`). -/
theorem migrateAll_namespace_usage (env : Env) (m : Migrator) (rs : List Release)
    (hl : env.listRun true = Except.ok rs) :
    (migrateAll env m).2
        = rs.flatMap (fun r => (migrateRelease env m r.name r.nspace).2)
    ∧ (∀ releaseName ns tgt' ns' rel,
        MEvent.create tgt' ns' rel ∈ (migrateRelease env m releaseName ns).2 → ns' = ns)
    ∧ (∀ h' releaseName ns,
        h' releaseName m.cfgNamespace env.maxFlag
            = env.histRun releaseName m.cfgNamespace env.maxFlag →
        migrateRelease { env with histRun := h' } m releaseName ns
          = migrateRelease env m releaseName ns)
    ∧ (∀ m', NewMigrator env env.kubeconfigFlag env.nsFlag = Except.ok m' →
        m'.cfgNamespace = env.nsFlag) := by
  refine ⟨?_, ?_, ?_, ?_⟩
  · unfold migrateAll
    rw [hl]
    exact allLoop_eq_flatMap env m rs
  · intro releaseName ns tgt' ns' rel hmem
    exact create_mem_migrateRelease env m releaseName ns tgt' ns' rel hmem
  · intro h' releaseName ns heq
    unfold migrateRelease
    simp only [show ({ env with histRun := h' } : Env).toFlag = env.toFlag from rfl,
      show ({ env with histRun := h' } : Env).histRun = h' from rfl,
      show ({ env with histRun := h' } : Env).maxFlag = env.maxFlag from rfl]
    cases hpt : parseTo env.toFlag with
    | none => rfl
    | some tgt =>
      rw [heq]
      cases env.histRun releaseName m.cfgNamespace env.maxFlag with
      | error e => rfl
      | ok hist =>
        simp only [migrateLoop_oracle_eq { env with histRun := h' } env releaseName tgt ns
            rfl rfl hist false]
  · intro m' hm'
    unfold NewMigrator at hm'
    cases hse : env.setupErr with
    | some e =>
      rw [hse] at hm'
      cases hm'
    | none =>
      rw [hse] at hm'
      injection hm' with h
      rw [← h]

/-! ### Concrete instantiations -/

/-- A concrete migrator whose action configuration was initialised for the
namespace "default". -/
def mA : Migrator := { cfgNamespace := "default" }

/-- A concrete release revision. -/
def relA : Release := { name := "myrel", nspace := "default", version := 1 }

/-- A concrete environment in which every external operation succeeds. -/
def envA : Env where
  kubeconfigFlag := "kubecfg"
  toFlag := "secret"
  nsFlag := "default"
  maxFlag := 1
  histRun := fun _ _ _ => Except.ok [relA]
  createOk := fun _ _ _ => true
  deleteOk := fun _ _ => true
  listRun := fun _ => Except.ok [relA]
  setupErr := none

/-- First revision of a two-revision history; its target write fails in
`envB`. -/
def relB1 : Release := { name := "relb", nspace := "default", version := 1 }

/-- Second revision of a two-revision history; its target write succeeds in
`envB`. -/
def relB2 : Release := { name := "relb", nspace := "default", version := 2 }

/-- A concrete environment in which the create of revision 1 fails and the
create of revision 2 succeeds. -/
def envB : Env :=
  { envA with
    toFlag := "configmap"
    histRun := fun _ _ _ => Except.ok [relB1, relB2]
    createOk := fun _ _ r => decide (r.version = 2) }

/-- A release in namespace "default". -/
def relC1 : Release := { name := "relc", nspace := "default", version := 1 }

/-- A release in another namespace. -/
def relC2 : Release := { name := "other", nspace := "kube-system", version := 3 }

/-- A concrete environment whose listing returns releases in two different
namespaces. -/
def envC : Env := { envA with listRun := fun _ => Except.ok [relC1, relC2] }

/-- A concrete environment with an unrecognized value of the `-to` flag. -/
def envD : Env := { envA with toFlag := "postgres" }

/-- Claim C1, instantiated: in a run where the single revision is written
successfully, its delete appears immediately after its create. -/
theorem migrateRelease_delete_only_after_create_witness :
    ∃ l1 l2, (migrateRelease envA mA "myrel" "default").2
        = l1 ++ MEvent.create TargetKind.secretKind "default" relA
            :: MEvent.delete "myrel" relA.version :: l2
      ∧ MEvent.delete "myrel" relA.version ∉ l1 :=
  (migrateRelease_delete_only_after_create envA mA "myrel" "default"
      TargetKind.secretKind [relA] rfl rfl (by decide) relA (by decide)).2 rfl

/-- Claim C2, instantiated at a one-revision history with all operations
succeeding. -/
theorem migrateRelease_success_counts_witness :
    (migrateRelease envA mA "myrel" "default").1 = Except.ok ()
    ∧ (migrateRelease envA mA "myrel" "default").2.countP MEvent.isCreate = [relA].length
    ∧ (migrateRelease envA mA "myrel" "default").2.countP MEvent.isDelete = [relA].length :=
  migrateRelease_success_counts envA mA "myrel" "default" TargetKind.secretKind [relA]
    rfl rfl (fun _ _ => ⟨rfl, rfl⟩)

/-- Claim C3, instantiated at a two-revision history whose first create
fails. -/
theorem migrateRelease_continues_past_failures_witness :
    (migrateRelease envB mA "relb" "default").2.countP MEvent.isCreate
        = [relB1, relB2].length
    ∧ (migrateRelease envB mA "relb" "default").2.countP MEvent.isDelete
        = [relB1, relB2].countP (fun r => envB.createOk TargetKind.configMapKind "default" r)
    ∧ (∀ r ∈ [relB1, relB2],
        envB.createOk TargetKind.configMapKind "default" r = false →
        MEvent.delete "relb" r.version ∈ (migrateRelease envB mA "relb" "default").2 →
        ∃ r', r' ∈ [relB1, relB2] ∧ r'.version = r.version
          ∧ envB.createOk TargetKind.configMapKind "default" r' = true) :=
  migrateRelease_continues_past_failures envB mA "relb" "default"
    TargetKind.configMapKind [relB1, relB2] rfl rfl

/-- Claim C4, instantiated at a two-revision history whose first create
fails. -/
theorem migrateRelease_error_iff_any_failure_witness :
    ((migrateRelease envB mA "relb" "default").1 = Except.ok ()
      ↔ ∀ r ∈ [relB1, relB2],
          envB.createOk TargetKind.configMapKind "default" r = true
          ∧ envB.deleteOk "relb" r.version = true)
    ∧ ((∃ r ∈ [relB1, relB2],
          ¬(envB.createOk TargetKind.configMapKind "default" r = true
            ∧ envB.deleteOk "relb" r.version = true)) →
        (migrateRelease envB mA "relb" "default").1
          = Except.error ("failed to migrate release " ++ "relb")) :=
  migrateRelease_error_iff_any_failure envB mA "relb" "default"
    TargetKind.configMapKind [relB1, relB2] rfl rfl

/-- Claim C5, instantiated at a listing with releases in two namespaces. -/
theorem migrateNamespace_only_matching_witness :
    (migrateNamespace envC mA "default").2
        = ([relC1, relC2].filter (fun r => r.nspace = "default")).flatMap
            (fun r => (migrateRelease envC mA r.name "default").2)
    ∧ (∀ tgt' ns' rel,
        MEvent.create tgt' ns' rel ∈ (migrateNamespace envC mA "default").2
          → ns' = "default")
    ∧ (∀ r ∈ [relC1, relC2], r.nspace ≠ "default" → ∀ v,
        MEvent.delete r.name v ∈ (migrateNamespace envC mA "default").2 →
        ∃ r', r' ∈ [relC1, relC2] ∧ r'.nspace = "default" ∧ r'.name = r.name) :=
  migrateNamespace_only_matching envC mA "default" [relC1, relC2] rfl

/-- Claim C6, instantiated at an environment whose `-to` value is
"postgres". -/
theorem migrateRelease_unknown_to_witness :
    migrateRelease envD mA "myrel" "default"
        = (Except.error ("unknown resource type " ++ envD.toFlag), [])
    ∧ (∀ h' c' d', migrateRelease
          { envD with histRun := h', createOk := c', deleteOk := d' } mA "myrel" "default"
        = (Except.error ("unknown resource type " ++ envD.toFlag), [])) :=
  migrateRelease_unknown_to envD mA "myrel" "default" rfl

/-- Claim C7, instantiated: with a successful listing, the namespace-scope
operation returns no error. -/
theorem scope_error_iff_listing_fails_witness :
    (migrateNamespace envA mA "default").1 = Except.ok () :=
  (scope_error_iff_listing_fails envA mA "default").1.mpr ⟨[relA], rfl⟩

/-- Claim C8, instantiated at an unknown subcommand. -/
theorem main_top_level_errors_witness :
    mainRun envA "bogus" ""
      = (MainOutcome.exitOne ("unknown subprogram " ++ "bogus"), []) :=
  (main_top_level_errors envA "bogus" "").2.2.1 mA (by decide) (by decide) (by decide)
    (by decide) rfl

/-- Claim C10, instantiated at a listing with releases in two namespaces. -/
theorem migrateAll_namespace_usage_witness :
    (migrateAll envC mA).2
        = [relC1, relC2].flatMap (fun r => (migrateRelease envC mA r.name r.nspace).2)
    ∧ (∀ releaseName ns tgt' ns' rel,
        MEvent.create tgt' ns' rel ∈ (migrateRelease envC mA releaseName ns).2 → ns' = ns)
    ∧ (∀ h' releaseName ns,
        h' releaseName mA.cfgNamespace envC.maxFlag
            = envC.histRun releaseName mA.cfgNamespace envC.maxFlag →
        migrateRelease { envC with histRun := h' } mA releaseName ns
          = migrateRelease envC mA releaseName ns)
    ∧ (∀ m', NewMigrator envC envC.kubeconfigFlag envC.nsFlag = Except.ok m' →
        m'.cfgNamespace = envC.nsFlag) :=
  migrateAll_namespace_usage envC mA [relC1, relC2] rfl
